import Mathlib

/-!
Shallow embedding of the ChopChop signature core
(`src/internal/signatures.go`): the signature data model, the
loader/validator `ParseSignatures`, the match engine `Check.Match`, and the
reporting loop of `PrintSignatures`, together with theorems settling the
spec's claims about them.

Go byte strings are modelled as Lean `String`s (their characters standing
for the bytes); Go `nil` pointers as `Option`; Go's `(value, error)`
returns as explicit pairs with an `Option` error component; the Go
`map[string][]string` header map as an association list looked up with
`List.lookup`.
-/

namespace ChopChop

/-- Go `bytes.Contains` / `strings.Contains` over character lists:
`containsSub hay sub = true` iff `sub` occurs contiguously inside `hay`
(the empty `sub` is contained in everything, as in Go). -/
def containsSub : List Char → List Char → Bool
  | hay, sub =>
    if sub.isPrefixOf hay then true
    else
      match hay with
      | [] => false
      | _ :: t => containsSub t sub

/-- Go `strings.Contains s sub` / `bytes.Contains body sub`, byte-exact
(no normalization, no case folding). -/
def goContains (s sub : String) : Bool :=
  containsSub s.data sub.data

/-- Go `strings.Split(s, ":")`, presented as (first piece, remaining
pieces): splitting always yields at least one piece, so the full result of
`strings.Split` is `(splitCol l).1 :: (splitCol l).2`. -/
def splitCol : List Char → List Char × List (List Char)
  | [] => ([], [])
  | c :: rest =>
    if c = ':' then ([], (splitCol rest).1 :: (splitCol rest).2)
    else (c :: (splitCol rest).1, (splitCol rest).2)

/-- Go `strings.Count(s, ":")`: number of `:` characters in `s`. -/
def countColons (s : String) : Nat :=
  s.data.count ':'

/-- The `KEY` part of a `"KEY:VALUE"` header string: everything before the
first `:` (Go `strings.Split(header, ":")[0]`). -/
def headerKey (h : String) : String :=
  String.mk (splitCol h.data).1

/-- The `VALUE` part of a `"KEY:VALUE"` header string: the piece after the
first `:` (Go `strings.Split(header, ":")[1]`, meaningful when the split
has exactly two pieces). -/
def headerVal (h : String) : String :=
  String.mk ((splitCol h.data).2.headD [])

/-- Structure `Check` from `signatures.go`: one matching rule within a plugin.
`statusCode` is a Go `*int`, hence `Option`. -/
structure Check where
  mustMatchOne : List String
  mustMatchAll : List String
  mustNotMatch : List String
  statusCode : Option Int
  name : String
  remediation : String
  severity : String
  description : String
  headers : List String
  noHeaders : List String
deriving DecidableEq

/-- Structure `Plugin` from `signatures.go`: endpoints, checks and the redirect flag. -/
structure Plugin where
  endpoints : List String
  checks : List Check
  followRedirects : Bool
deriving DecidableEq

/-- Structure `Signatures` from `signatures.go`: the root of a rule file. -/
structure Signatures where
  plugins : List Plugin
deriving DecidableEq

/-- Modelled from the spec: `HTTPResponse` is produced by the HTTP client,
repository code not under `src/` (spec §3): `statusCode` integer, `body`
byte sequence, `header` a mapping from header name to the ordered sequence
of raw values. The body's bytes are the characters of a Lean `String`;
the map is an association list. -/
structure HTTPResponse where
  statusCode : Int
  body : String
  header : List (String × List String)
deriving DecidableEq

/-- Errors `Check.Match` can return. `nilParameter` stands for
`ErrNilParameter` (modelled from the spec's `NilParameterError`, defined in
repository code not under `src/`); `invalidHeaderFormat` is
`ErrInvalidHeaderFormat` from `signatures.go`. -/
inductive MatchError where
  | nilParameter (param : String)
  | invalidHeaderFormat (header : String)
deriving DecidableEq

/-- The headers loop of `Check.Match` (lines 99–124): walks the `headers`
entries; `some r` means the loop returned early with `r`, `none` means it
ran to completion. Each entry is split on `:`; a split without exactly two
pieces is an `ErrInvalidHeaderFormat`; a missing key or no value containing
the wanted substring is a plain non-match. -/
def checkHeadersLoop (resp : HTTPResponse) : List String → Option (Bool × Option MatchError)
  | [] => none
  | h :: rest =>
    match splitCol h.data with
    | (p, [v]) =>
      match List.lookup (String.mk p) resp.header with
      | none => some (false, none)
      | some vals =>
        if vals.any (fun rv => goContains rv (String.mk v)) then
          checkHeadersLoop resp rest
        else
          some (false, none)
    | _ => some (false, some (MatchError.invalidHeaderFormat h))

/-- The noHeaders loop of `Check.Match` (lines 127–147): walks the
`noHeaders` entries; `some r` means an early return, `none` completion. A
present key with a value containing the forbidden substring is a
non-match; an absent key is fine. -/
def checkNoHeadersLoop (resp : HTTPResponse) : List String → Option (Bool × Option MatchError)
  | [] => none
  | h :: rest =>
    match splitCol h.data with
    | (p, [v]) =>
      match List.lookup (String.mk p) resp.header with
      | none => checkNoHeadersLoop resp rest
      | some vals =>
        if vals.any (fun rv => goContains rv (String.mk v)) then
          some (false, none)
        else
          checkNoHeadersLoop resp rest
    | _ => some (false, some (MatchError.invalidHeaderFormat h))

/-- Stage 6 of `Check.Match`: the noHeaders loop followed by the final
`(true, nil)` when it completes. -/
def stageNoHeaders (check : Check) (resp : HTTPResponse) : Bool × Option MatchError :=
  match checkNoHeadersLoop resp check.noHeaders with
  | some r => r
  | none => (true, none)

/-- Stage 5 of `Check.Match`: the headers loop, then stage 6. -/
def stageHeaders (check : Check) (resp : HTTPResponse) : Bool × Option MatchError :=
  match checkHeadersLoop resp check.headers with
  | some r => r
  | none => stageNoHeaders check resp

/-- Stage 4 of `Check.Match` (lines 92–96): any `MustNotMatch` string found
in the body ends the evaluation as a non-match. -/
def stageNotMatch (check : Check) (resp : HTTPResponse) : Bool × Option MatchError :=
  if check.mustNotMatch.any (fun m => goContains resp.body m) then (false, none)
  else stageHeaders check resp

/-- Stage 3 of `Check.Match` (lines 80–89): at least one `MustMatchOne`
string must be found in the body; otherwise `(false, nil)`. -/
def stageMatchOne (check : Check) (resp : HTTPResponse) : Bool × Option MatchError :=
  if check.mustMatchOne.any (fun m => goContains resp.body m) then stageNotMatch check resp
  else (false, none)

/-- Stage 2 of `Check.Match` (lines 73–77): every `MustMatchAll` string
must be found in the body; the first absence returns `(false, nil)`. -/
def stageMatchAll (check : Check) (resp : HTTPResponse) : Bool × Option MatchError :=
  if check.mustMatchAll.all (fun m => goContains resp.body m) then stageMatchOne check resp
  else (false, none)

/-- Function `Check.Match` from `signatures.go` (lines 55–151). The Go receiver and
the response are pointers, hence `Option` on both; a Go `(bool, error)`
return is a `Bool × Option MatchError`. -/
def Check.Match (check : Option Check) (resp : Option HTTPResponse) : Bool × Option MatchError :=
  match check with
  | none => (false, some (MatchError.nilParameter "check"))
  | some check =>
    match check.statusCode with
    | none => (false, some (MatchError.nilParameter "check.StatusCode"))
    | some sc =>
      match resp with
      | none => (false, some (MatchError.nilParameter "resp"))
      | some resp =>
        if resp.statusCode ≠ sc then (false, none)
        else stageMatchAll check resp

/-- The severity levels, ordered critical > high > medium > low >
informational (spec glossary). -/
inductive Severity where
  | critical | high | medium | low | informational
deriving DecidableEq

/-- Errors `ParseSignatures` can return after a successful
deserialization. `checkInvalidField` is `ErrCheckInvalidField` from
`signatures.go` (the spec's `MissingFieldError`); `invalidSeverity` stands
for the severity classifier's error (the spec's `InvalidSeverityError`);
`invalidHeaderFormat` is `ErrInvalidHeaderFormat`. -/
inductive ParseError where
  | checkInvalidField (check : String) (field : String)
  | invalidSeverity (severity : String)
  | invalidHeaderFormat (header : String)
deriving DecidableEq

/-- Modelled from the spec: `StringToSeverity`, the severity classifier,
is repository code not under `src/`; per spec §4.2 it maps the labels
critical/high/medium/low/informational to a severity level and fails on
any other label. -/
def StringToSeverity (s : String) : Option Severity :=
  if s = "critical" then some Severity.critical
  else if s = "high" then some Severity.high
  else if s = "medium" then some Severity.medium
  else if s = "low" then some Severity.low
  else if s = "informational" then some Severity.informational
  else none

/-- The header-format loop of `ParseSignatures` (lines 223–227): the first
`headers` entry whose `:` count differs from one yields an
`ErrInvalidHeaderFormat`. -/
def firstBadHeader : List String → Option ParseError
  | [] => none
  | h :: rest =>
    if countColons h ≠ 1 then some (ParseError.invalidHeaderFormat h)
    else firstBadHeader rest

/-- The per-check validation of `ParseSignatures` (lines 207–227): the Go
`switch ""` tries `Description`, `Remediation`, `Severity` in that order;
then the severity label is classified; then the `headers` entries are
format-checked. Returns the first error, `none` if the check is valid. -/
def validateCheck (check : Check) : Option ParseError :=
  if check.description = "" then some (ParseError.checkInvalidField check.name "description")
  else if check.remediation = "" then some (ParseError.checkInvalidField check.name "remediation")
  else if check.severity = "" then some (ParseError.checkInvalidField check.name "severity")
  else if (StringToSeverity check.severity).isNone then
    some (ParseError.invalidSeverity check.severity)
  else firstBadHeader check.headers

/-- The inner validation loop of `ParseSignatures`: first invalid check of
a plugin wins. -/
def validateChecks : List Check → Option ParseError
  | [] => none
  | c :: rest =>
    match validateCheck c with
    | some e => some e
    | none => validateChecks rest

/-- The outer validation loop of `ParseSignatures`: first invalid plugin
wins. -/
def validatePlugins : List Plugin → Option ParseError
  | [] => none
  | p :: rest =>
    match validateChecks p.checks with
    | some e => some e
    | none => validatePlugins rest

/-- Function `ParseSignatures` from `signatures.go` (lines 189–232) after a
successful `yaml.Unmarshal` (deserialization is the external YAML
library): validates every check of every plugin in document order and
returns the signatures unchanged when all are valid, the first error
otherwise. -/
def ParseSignatures (sign : Signatures) : Except ParseError Signatures :=
  match validatePlugins sign.plugins with
  | some e => Except.error e
  | none => Except.ok sign

/-- A reporting row of `PrintSignatures`: endpoints, check name, severity,
description. -/
abbrev Row := List String × String × String × String

/-- The inner loop of `PrintSignatures` (lines 241–246) over one plugin's
checks: the rows appended and the number of counter increments, in
iteration order. -/
def printChecksLoop (sevStr : String) (endpoints : List String) : List Check → List Row × Nat
  | [] => ([], 0)
  | c :: rest =>
    let r := printChecksLoop sevStr endpoints rest
    if sevStr == c.severity then
      ((endpoints, c.name, c.severity, c.description) :: r.1, r.2 + 1)
    else r

/-- The outer loop of `PrintSignatures` (lines 240–247) over the plugins. -/
def printPluginsLoop (sevStr : String) : List Plugin → List Row × Nat
  | [] => ([], 0)
  | p :: rest =>
    let here := printChecksLoop sevStr p.endpoints p.checks
    let later := printPluginsLoop sevStr rest
    (here.1 ++ later.1, here.2 + later.2)

/-- Function `PrintSignatures` from `signatures.go` (lines 235–250), with the
rendering stripped to its observable content: the sequence of appended
rows and the total-checks counter `cpt` printed in the footer. -/
def PrintSignatures (sign : Signatures) (sevStr : String) : List Row × Nat :=
  printPluginsLoop sevStr sign.plugins

/-! Spec-side definitions, written from the spec's words, to be compared
with the source-derived definitions above. -/

/-- From the spec's words (§4.3 stages 5 and 6, shared shape): a
`"KEY:VALUE"` entry *hits* a header map when key `KEY` is present and at
least one of its values contains `VALUE` as a substring. -/
def headerEntryHit (hdr : List (String × List String)) (h : String) : Bool :=
  match List.lookup (headerKey h) hdr with
  | none => false
  | some vals => vals.any (fun rv => goContains rv (headerVal h))

/-- From the spec's words (§4.3): the conjunction of the six match stages —
status equality, all of `mustMatchAll` in the body, at least one of
`mustMatchOne`, none of `mustNotMatch`, every `headers` entry hitting the
header map, and no `noHeaders` entry hitting it. -/
def sixStagesSpec (check : Check) (resp : HTTPResponse) : Bool :=
  check.statusCode == some resp.statusCode
    && check.mustMatchAll.all (fun m => goContains resp.body m)
    && check.mustMatchOne.any (fun m => goContains resp.body m)
    && !check.mustNotMatch.any (fun m => goContains resp.body m)
    && check.headers.all (fun h => headerEntryHit resp.header h)
    && check.noHeaders.all (fun h => !headerEntryHit resp.header h)

/-- From the spec's words (§8 round-trip): the checks of the set whose
`severity` equals the filter, paired with their plugin's endpoints, in
original document order. -/
def checksWithSeveritySpec (sign : Signatures) (sevStr : String) : List Row :=
  ((sign.plugins.flatMap fun p => p.checks.map fun c => (p.endpoints, c)).filter
      fun pc => sevStr == pc.2.severity).map
    fun pc => (pc.1, pc.2.name, pc.2.severity, pc.2.description)

/-! Helper lemmas. -/

/-- The number of pieces after the first equals the number of `:`
characters: `strings.Split` yields `count + 1` pieces. -/
theorem splitCol_snd_length (l : List Char) : ((splitCol l).2).length = l.count ':' := by
  induction l with
  | nil => simp [splitCol]
  | cons c rest ih =>
    by_cases hc : c = ':'
    · simp [splitCol, hc, ih, List.count_cons]
    · simp [splitCol, hc, ih, List.count_cons, Ne.symm hc]

/-- A header string with exactly one `:` splits into exactly two pieces. -/
theorem countColons_eq_one_split (h : String) (hone : countColons h = 1) :
    ∃ v, (splitCol h.data).2 = [v] := by
  have hl : ((splitCol h.data).2).length = 1 := by
    rw [splitCol_snd_length]; exact hone
  exact List.length_eq_one.mp hl

/-- Under well-formed entries, the headers loop completes exactly when
every entry hits the response's header map, and otherwise returns a plain
non-match. -/
theorem checkHeadersLoop_wf (resp : HTTPResponse) (hs : List String)
    (hwf : ∀ h ∈ hs, countColons h = 1) :
    checkHeadersLoop resp hs =
      if hs.all (fun h => headerEntryHit resp.header h) then none
      else some (false, none) := by
  induction hs with
  | nil => simp [checkHeadersLoop]
  | cons h rest ih =>
    obtain ⟨v, hv⟩ := countColons_eq_one_split h (hwf h (by simp))
    have hsp : splitCol h.data = ((splitCol h.data).1, [v]) := by
      rw [← hv]
    have hhit : headerEntryHit resp.header h =
        match List.lookup (String.mk (splitCol h.data).1) resp.header with
        | none => false
        | some vals => vals.any (fun rv => goContains rv (String.mk v)) := by
      simp [headerEntryHit, headerKey, headerVal, hv]
    have ih' := ih (fun x hx => hwf x (by simp [hx]))
    rw [List.all_cons]
    rw [checkHeadersLoop, hsp]
    cases hlk : List.lookup (String.mk (splitCol h.data).1) resp.header with
    | none =>
      simp only [hhit, hlk]
      simp
    | some vals =>
      cases hany : vals.any (fun rv => goContains rv (String.mk v)) with
      | false =>
        simp only [hhit, hlk, hany]
        simp
      | true =>
        simp only [hhit, hlk, hany, ih']
        simp

/-- Under well-formed entries, the noHeaders loop completes exactly when
no entry hits the response's header map, and otherwise returns a plain
non-match. -/
theorem checkNoHeadersLoop_wf (resp : HTTPResponse) (hs : List String)
    (hwf : ∀ h ∈ hs, countColons h = 1) :
    checkNoHeadersLoop resp hs =
      if hs.all (fun h => !headerEntryHit resp.header h) then none
      else some (false, none) := by
  induction hs with
  | nil => simp [checkNoHeadersLoop]
  | cons h rest ih =>
    obtain ⟨v, hv⟩ := countColons_eq_one_split h (hwf h (by simp))
    have hsp : splitCol h.data = ((splitCol h.data).1, [v]) := by
      rw [← hv]
    have hhit : headerEntryHit resp.header h =
        match List.lookup (String.mk (splitCol h.data).1) resp.header with
        | none => false
        | some vals => vals.any (fun rv => goContains rv (String.mk v)) := by
      simp [headerEntryHit, headerKey, headerVal, hv]
    have ih' := ih (fun x hx => hwf x (by simp [hx]))
    rw [List.all_cons]
    rw [checkNoHeadersLoop, hsp]
    cases hlk : List.lookup (String.mk (splitCol h.data).1) resp.header with
    | none =>
      simp only [hhit, hlk, ih']
      simp
    | some vals =>
      cases hany : vals.any (fun rv => goContains rv (String.mk v)) with
      | false =>
        simp only [hhit, hlk, hany, ih']
        simp
      | true =>
        simp only [hhit, hlk, hany]
        simp

/-- Every early return of the headers loop carries `matched = false`. -/
theorem checkHeadersLoop_some_false (resp : HTTPResponse) (hs : List String)
    (r : Bool × Option MatchError) (hr : checkHeadersLoop resp hs = some r) :
    r.1 = false := by
  induction hs with
  | nil => simp [checkHeadersLoop] at hr
  | cons h rest ih =>
    rw [checkHeadersLoop] at hr
    rcases hsp : splitCol h.data with ⟨p, ps⟩
    rw [hsp] at hr
    match ps with
    | [] =>
      simp at hr
      rw [← hr]
    | [v] =>
      simp only at hr
      cases hlk : List.lookup (String.mk p) resp.header with
      | none =>
        rw [hlk] at hr
        simp at hr
        rw [← hr]
      | some vals =>
        rw [hlk] at hr
        simp only at hr
        cases hany : vals.any (fun rv => goContains rv (String.mk v)) with
        | true =>
          rw [hany] at hr
          simp at hr
          exact ih hr
        | false =>
          rw [hany] at hr
          simp at hr
          rw [← hr]
    | v₁ :: v₂ :: vs =>
      simp at hr
      rw [← hr]

/-- Every early return of the noHeaders loop carries `matched = false`. -/
theorem checkNoHeadersLoop_some_false (resp : HTTPResponse) (hs : List String)
    (r : Bool × Option MatchError) (hr : checkNoHeadersLoop resp hs = some r) :
    r.1 = false := by
  induction hs with
  | nil => simp [checkNoHeadersLoop] at hr
  | cons h rest ih =>
    rw [checkNoHeadersLoop] at hr
    rcases hsp : splitCol h.data with ⟨p, ps⟩
    rw [hsp] at hr
    match ps with
    | [] =>
      simp at hr
      rw [← hr]
    | [v] =>
      simp only at hr
      cases hlk : List.lookup (String.mk p) resp.header with
      | none =>
        rw [hlk] at hr
        simp at hr
        exact ih hr
      | some vals =>
        rw [hlk] at hr
        simp only at hr
        cases hany : vals.any (fun rv => goContains rv (String.mk v)) with
        | true =>
          rw [hany] at hr
          simp at hr
          rw [← hr]
        | false =>
          rw [hany] at hr
          simp at hr
          exact ih hr
    | v₁ :: v₂ :: vs =>
      simp at hr
      rw [← hr]

/-- If the headers loop runs to completion, every entry it walked had
exactly one `:`. -/
theorem checkHeadersLoop_none_wf (resp : HTTPResponse) (hs : List String)
    (hr : checkHeadersLoop resp hs = none) :
    ∀ h ∈ hs, countColons h = 1 := by
  induction hs with
  | nil => simp
  | cons h rest ih =>
    rw [checkHeadersLoop] at hr
    rcases hsp : splitCol h.data with ⟨p, ps⟩
    rw [hsp] at hr
    match ps with
    | [] => simp at hr
    | [v] =>
      have hcount : countColons h = 1 := by
        have := splitCol_snd_length h.data
        rw [hsp] at this
        simpa [countColons] using this.symm
      simp only at hr
      cases hlk : List.lookup (String.mk p) resp.header with
      | none =>
        rw [hlk] at hr
        simp at hr
      | some vals =>
        rw [hlk] at hr
        simp only at hr
        cases hany : vals.any (fun rv => goContains rv (String.mk v)) with
        | true =>
          rw [hany] at hr
          simp at hr
          intro x hx
          rcases List.mem_cons.mp hx with hx | hx
          · rw [hx]; exact hcount
          · exact ih hr x hx
        | false =>
          rw [hany] at hr
          simp at hr
    | v₁ :: v₂ :: vs => simp at hr

/-- If the noHeaders loop runs to completion, every entry it walked had
exactly one `:`. -/
theorem checkNoHeadersLoop_none_wf (resp : HTTPResponse) (hs : List String)
    (hr : checkNoHeadersLoop resp hs = none) :
    ∀ h ∈ hs, countColons h = 1 := by
  induction hs with
  | nil => simp
  | cons h rest ih =>
    rw [checkNoHeadersLoop] at hr
    rcases hsp : splitCol h.data with ⟨p, ps⟩
    rw [hsp] at hr
    match ps with
    | [] => simp at hr
    | [v] =>
      have hcount : countColons h = 1 := by
        have := splitCol_snd_length h.data
        rw [hsp] at this
        simpa [countColons] using this.symm
      simp only at hr
      cases hlk : List.lookup (String.mk p) resp.header with
      | none =>
        rw [hlk] at hr
        simp at hr
        intro x hx
        rcases List.mem_cons.mp hx with hx | hx
        · rw [hx]; exact hcount
        · exact ih hr x hx
      | some vals =>
        rw [hlk] at hr
        simp only at hr
        cases hany : vals.any (fun rv => goContains rv (String.mk v)) with
        | true =>
          rw [hany] at hr
          simp at hr
        | false =>
          rw [hany] at hr
          simp at hr
          intro x hx
          rcases List.mem_cons.mp hx with hx | hx
          · rw [hx]; exact hcount
          · exact ih hr x hx
    | v₁ :: v₂ :: vs => simp at hr

/-- A successful match certifies that every `headers` and `noHeaders`
entry had exactly one `:` (both loops ran to completion). -/
theorem match_true_wf (check : Check) (resp : HTTPResponse) (e : Option MatchError)
    (hm : Check.Match (some check) (some resp) = (true, e)) :
    (∀ h ∈ check.headers, countColons h = 1) ∧
    (∀ h ∈ check.noHeaders, countColons h = 1) := by
  rw [Check.Match] at hm
  cases hsc : check.statusCode with
  | none => rw [hsc] at hm; simp at hm
  | some sc =>
    rw [hsc] at hm
    simp only at hm
    by_cases hst : resp.statusCode ≠ sc
    · rw [if_pos hst] at hm; simp at hm
    · rw [if_neg hst] at hm
      rw [stageMatchAll] at hm
      by_cases h2 : check.mustMatchAll.all (fun m => goContains resp.body m)
      · rw [if_pos h2] at hm
        rw [stageMatchOne] at hm
        by_cases h3 : check.mustMatchOne.any (fun m => goContains resp.body m)
        · rw [if_pos h3] at hm
          rw [stageNotMatch] at hm
          by_cases h4 : check.mustNotMatch.any (fun m => goContains resp.body m)
          · rw [if_pos h4] at hm; simp at hm
          · rw [if_neg h4] at hm
            rw [stageHeaders] at hm
            cases hH : checkHeadersLoop resp check.headers with
            | some r =>
              rw [hH] at hm
              simp only at hm
              have := checkHeadersLoop_some_false resp check.headers r hH
              rw [hm] at this
              simp at this
            | none =>
              rw [hH] at hm
              simp only at hm
              rw [stageNoHeaders] at hm
              cases hN : checkNoHeadersLoop resp check.noHeaders with
              | some r =>
                rw [hN] at hm
                simp only at hm
                have := checkNoHeadersLoop_some_false resp check.noHeaders r hN
                rw [hm] at this
                simp at this
              | none =>
                exact ⟨checkHeadersLoop_none_wf resp check.headers hH,
                  checkNoHeadersLoop_none_wf resp check.noHeaders hN⟩
        · rw [if_neg h3] at hm; simp at hm
      · rw [if_neg h2] at hm; simp at hm

/-- If the check loop finds no error, every check was valid. -/
theorem validateChecks_none (cs : List Check) (hr : validateChecks cs = none) :
    ∀ c ∈ cs, validateCheck c = none := by
  induction cs with
  | nil => simp
  | cons c rest ih =>
    rw [validateChecks] at hr
    cases hv : validateCheck c with
    | some e => rw [hv] at hr; simp at hr
    | none =>
      rw [hv] at hr
      simp only at hr
      intro x hx
      rcases List.mem_cons.mp hx with hx | hx
      · rw [hx]; exact hv
      · exact ih hr x hx

/-- If the plugin loop finds no error, every plugin's checks were valid. -/
theorem validatePlugins_none (ps : List Plugin) (hr : validatePlugins ps = none) :
    ∀ p ∈ ps, validateChecks p.checks = none := by
  induction ps with
  | nil => simp
  | cons p rest ih =>
    rw [validatePlugins] at hr
    cases hv : validateChecks p.checks with
    | some e => rw [hv] at hr; simp at hr
    | none =>
      rw [hv] at hr
      simp only at hr
      intro x hx
      rcases List.mem_cons.mp hx with hx | hx
      · rw [hx]; exact hv
      · exact ih hr x hx

/-- If the header-format loop finds no error, every entry has exactly
one `:`. -/
theorem firstBadHeader_none (hs : List String) (hr : firstBadHeader hs = none) :
    ∀ h ∈ hs, countColons h = 1 := by
  induction hs with
  | nil => simp
  | cons h rest ih =>
    rw [firstBadHeader] at hr
    by_cases hb : countColons h ≠ 1
    · rw [if_pos hb] at hr; simp at hr
    · rw [if_neg hb] at hr
      intro x hx
      rcases List.mem_cons.mp hx with hx | hx
      · rw [hx]; exact not_ne_iff.mp hb
      · exact ih hr x hx

/-- A list of individually valid checks passes the check loop. -/
theorem validateChecks_of_all_none (cs : List Check)
    (hall : ∀ d ∈ cs, validateCheck d = none) : validateChecks cs = none := by
  induction cs with
  | nil => rfl
  | cons d rest ih =>
    rw [validateChecks, hall d (by simp)]
    exact ih fun x hx => hall x (by simp [hx])

/-- A valid check has no malformed `headers` entry. -/
theorem validateCheck_none_headers (c : Check) (hr : validateCheck c = none) :
    ∀ h ∈ c.headers, countColons h = 1 := by
  rw [validateCheck] at hr
  by_cases h1 : c.description = ""
  · rw [if_pos h1] at hr; simp at hr
  · rw [if_neg h1] at hr
    by_cases h2 : c.remediation = ""
    · rw [if_pos h2] at hr; simp at hr
    · rw [if_neg h2] at hr
      by_cases h3 : c.severity = ""
      · rw [if_pos h3] at hr; simp at hr
      · rw [if_neg h3] at hr
        by_cases h4 : (StringToSeverity c.severity).isNone
        · rw [if_pos h4] at hr; simp at hr
        · rw [if_neg h4] at hr
          exact firstBadHeader_none c.headers hr

/-- The check loop reports the first invalid check: valid checks before it
are skipped. -/
theorem validateChecks_append (cs1 cs2 : List Check) (c : Check) (e : ParseError)
    (hpre : ∀ d ∈ cs1, validateCheck d = none) (hc : validateCheck c = some e) :
    validateChecks (cs1 ++ c :: cs2) = some e := by
  induction cs1 with
  | nil => simp [validateChecks, hc]
  | cons d rest ih =>
    rw [List.cons_append, validateChecks, hpre d (by simp)]
    exact ih fun x hx => hpre x (by simp [hx])

/-- The plugin loop reports the first invalid plugin: plugins whose checks
are all valid are skipped. -/
theorem validatePlugins_append (ps1 ps2 : List Plugin) (p : Plugin) (e : ParseError)
    (hpre : ∀ q ∈ ps1, ∀ d ∈ q.checks, validateCheck d = none)
    (hp : validateChecks p.checks = some e) :
    validatePlugins (ps1 ++ p :: ps2) = some e := by
  induction ps1 with
  | nil => simp [validatePlugins, hp]
  | cons q rest ih =>
    have hq : validateChecks q.checks = none :=
      validateChecks_of_all_none q.checks (hpre q (by simp))
    rw [List.cons_append, validatePlugins, hq]
    exact ih fun x hx => hpre x (by simp [hx])

/-- The inner reporting loop produces exactly the rows of the checks whose
severity equals the filter, in order, and counts them. -/
theorem printChecksLoop_eq (sevStr : String) (eps : List String) (cs : List Check) :
    printChecksLoop sevStr eps cs =
      ((((cs.map fun c => (eps, c)).filter fun pc => sevStr == pc.2.severity).map
          fun pc => (pc.1, pc.2.name, pc.2.severity, pc.2.description)),
        (((cs.map fun c => (eps, c)).filter fun pc => sevStr == pc.2.severity).map
          fun pc => (pc.1, pc.2.name, pc.2.severity, pc.2.description)).length) := by
  induction cs with
  | nil => simp [printChecksLoop]
  | cons c rest ih =>
    rw [printChecksLoop, ih]
    cases hsev : sevStr == c.severity with
    | true => simp [List.filter_cons, hsev]
    | false => simp [List.filter_cons, hsev]

/-! Concrete inputs used by witnesses and counterexamples. -/

/-- A well-formed check exercising all six stages. -/
def c1check : Check :=
  { mustMatchOne := ["b"], mustMatchAll := ["a"], mustNotMatch := ["z"],
    statusCode := some 200, name := "n", remediation := "r", severity := "high",
    description := "d", headers := ["K:V"], noHeaders := ["N:W"] }

/-- A response matching `c1check` on all six stages. -/
def c1resp : HTTPResponse :=
  { statusCode := 200, body := "ab", header := [("K", ["xVy"])] }

/-! Claim theorems. -/

/-- C1: for every non-nil check with non-nil statusCode whose `headers`
and `noHeaders` entries each contain exactly one `:`, and every non-nil
response, `Match` returns `(true, nil)` iff all six stages hold, and
`(false, nil)` in every other case. -/
theorem match_eq_sixStagesSpec (check : Check) (resp : HTTPResponse) (sc : Int)
    (hsc : check.statusCode = some sc)
    (hwfh : ∀ h ∈ check.headers, countColons h = 1)
    (hwfn : ∀ h ∈ check.noHeaders, countColons h = 1) :
    Check.Match (some check) (some resp) =
      if sixStagesSpec check resp then ((true : Bool), (none : Option MatchError))
      else (false, none) := by
  rw [Check.Match, hsc]
  simp only
  by_cases hst : resp.statusCode = sc
  · rw [if_neg (by simp [hst])]
    have hbeq : (check.statusCode == some resp.statusCode) = true := by
      simp [hsc, hst]
    cases h2 : check.mustMatchAll.all (fun m => goContains resp.body m) <;>
    cases h3 : check.mustMatchOne.any (fun m => goContains resp.body m) <;>
    cases h4 : check.mustNotMatch.any (fun m => goContains resp.body m) <;>
    cases h5 : check.headers.all (fun h => headerEntryHit resp.header h) <;>
    cases h6 : check.noHeaders.all (fun h => !headerEntryHit resp.header h) <;>
    simp [stageMatchAll, stageMatchOne, stageNotMatch, stageHeaders, stageNoHeaders,
      checkHeadersLoop_wf resp check.headers hwfh,
      checkNoHeadersLoop_wf resp check.noHeaders hwfn,
      sixStagesSpec, hbeq, h2, h3, h4, h5, h6]
  · rw [if_pos hst]
    have hspec : sixStagesSpec check resp = false := by
      have : (check.statusCode == some resp.statusCode) = false := by
        rw [hsc]
        simp
        exact fun h => hst h.symm
      simp [sixStagesSpec, this]
    rw [hspec]
    simp

/-- Witness for C1: the hypotheses hold at `c1check`/`c1resp` and the
theorem applies there. -/
theorem match_eq_sixStagesSpec_witness :
    c1check.statusCode = some 200
    ∧ (∀ h ∈ c1check.headers, countColons h = 1)
    ∧ (∀ h ∈ c1check.noHeaders, countColons h = 1)
    ∧ Check.Match (some c1check) (some c1resp) =
        (if sixStagesSpec c1check c1resp then ((true : Bool), (none : Option MatchError))
         else (false, none)) :=
  ⟨by decide, by decide, by decide,
    match_eq_sixStagesSpec c1check c1resp 200 (by decide) (by decide) (by decide)⟩

/-- C4: with an empty `mustMatchOne`, even a response that passes the
status gate and every `mustMatchAll` requirement yields `(false, nil)` —
the empty OR-set is never satisfiable. -/
theorem empty_mustMatchOne_no_match (check : Check) (resp : HTTPResponse) (sc : Int)
    (hsc : check.statusCode = some sc) (hone : check.mustMatchOne = [])
    (hst : resp.statusCode = sc)
    (hall : ∀ m ∈ check.mustMatchAll, goContains resp.body m = true) :
    Check.Match (some check) (some resp) = (false, none) := by
  rw [Check.Match, hsc]
  simp only
  rw [if_neg (by simp [hst])]
  rw [stageMatchAll, if_pos (List.all_eq_true.mpr hall), stageMatchOne, hone]
  simp

/-- Witness for C4 at a concrete check and response. -/
theorem empty_mustMatchOne_no_match_witness :
    ({ c1check with mustMatchOne := [] } : Check).statusCode = some 200
    ∧ ({ c1check with mustMatchOne := [] } : Check).mustMatchOne = []
    ∧ c1resp.statusCode = 200
    ∧ (∀ m ∈ ({ c1check with mustMatchOne := [] } : Check).mustMatchAll,
        goContains c1resp.body m = true)
    ∧ Check.Match (some { c1check with mustMatchOne := [] }) (some c1resp) = (false, none) :=
  ⟨by decide, by decide, by decide, by decide,
    empty_mustMatchOne_no_match { c1check with mustMatchOne := [] } c1resp 200
      (by decide) (by decide) (by decide) (by decide)⟩

/-- C5: the nil preconditions are checked in order — nil check, then nil
statusCode (for any response, even nil), then nil response — each
producing the corresponding `NilParameterError`. -/
theorem match_nil_preconditions :
    (∀ resp : Option HTTPResponse,
        Check.Match none resp = (false, some (MatchError.nilParameter "check")))
    ∧ (∀ (check : Check) (resp : Option HTTPResponse), check.statusCode = none →
        Check.Match (some check) resp =
          (false, some (MatchError.nilParameter "check.StatusCode")))
    ∧ (∀ (check : Check) (sc : Int), check.statusCode = some sc →
        Check.Match (some check) none =
          (false, some (MatchError.nilParameter "resp"))) := by
  refine ⟨fun resp => rfl, fun check resp h => ?_, fun check sc h => ?_⟩
  · rw [Check.Match, h]
  · rw [Check.Match, h]

/-- Witness for C5 at concrete inputs (incl. a nil response for the
nil-statusCode case). -/
theorem match_nil_preconditions_witness :
    Check.Match none (some c1resp) = (false, some (MatchError.nilParameter "check"))
    ∧ ({ c1check with statusCode := none } : Check).statusCode = none
    ∧ Check.Match (some { c1check with statusCode := none }) none =
        (false, some (MatchError.nilParameter "check.StatusCode"))
    ∧ c1check.statusCode = some 200
    ∧ Check.Match (some c1check) none = (false, some (MatchError.nilParameter "resp")) :=
  ⟨match_nil_preconditions.1 (some c1resp), by decide,
    match_nil_preconditions.2.1 { c1check with statusCode := none } none (by decide),
    by decide,
    match_nil_preconditions.2.2 c1check 200 (by decide)⟩

/-- C7: a status-code mismatch ends evaluation immediately with
`(false, nil)` — no error even when body rules would succeed or header
entries are malformed. -/
theorem status_mismatch_short_circuit (check : Check) (resp : HTTPResponse) (sc : Int)
    (hsc : check.statusCode = some sc) (hne : resp.statusCode ≠ sc) :
    Check.Match (some check) (some resp) = (false, none) := by
  rw [Check.Match, hsc]
  simp [hne]

/-- Witness for C7: a check whose body rules would succeed and whose
`headers` entry is malformed, against a response with a different status. -/
theorem status_mismatch_short_circuit_witness :
    ({ c1check with headers := ["X-Foo"] } : Check).statusCode = some 200
    ∧ ((404 : Int) ≠ 200)
    ∧ Check.Match (some { c1check with headers := ["X-Foo"] })
        (some { c1resp with statusCode := 404 }) = (false, none) :=
  ⟨by decide, by decide,
    status_mismatch_short_circuit { c1check with headers := ["X-Foo"] }
      { c1resp with statusCode := 404 } 200 (by decide) (by decide)⟩

/-- C10: an empty `mustMatchAll` imposes no constraint — once the status
gate passes, evaluation always proceeds to the `mustMatchOne` stage. -/
theorem empty_mustMatchAll_vacuous (check : Check) (resp : HTTPResponse) (sc : Int)
    (hsc : check.statusCode = some sc) (hall : check.mustMatchAll = [])
    (hst : resp.statusCode = sc) :
    Check.Match (some check) (some resp) = stageMatchOne check resp := by
  rw [Check.Match, hsc]
  simp only
  rw [if_neg (by simp [hst])]
  rw [stageMatchAll, hall]
  simp

/-- Witness for C10 at a concrete check and response. -/
theorem empty_mustMatchAll_vacuous_witness :
    ({ c1check with mustMatchAll := [] } : Check).statusCode = some 200
    ∧ ({ c1check with mustMatchAll := [] } : Check).mustMatchAll = []
    ∧ c1resp.statusCode = 200
    ∧ Check.Match (some { c1check with mustMatchAll := [] }) (some c1resp) =
        stageMatchOne { c1check with mustMatchAll := [] } c1resp :=
  ⟨by decide, by decide, by decide,
    empty_mustMatchAll_vacuous { c1check with mustMatchAll := [] } c1resp 200
      (by decide) (by decide) (by decide)⟩

/-- The §8 end-to-end scenario's check: `status_code: 200`,
`all_match: ["WordPress"]`, `headers: ["X-Powered-By:PHP"]`, severity
"high", description "d", remediation "r", and no other match fields. -/
def c2check : Check :=
  { mustMatchOne := [], mustMatchAll := ["WordPress"], mustNotMatch := [],
    statusCode := some 200, name := "n", remediation := "r", severity := "high",
    description := "d", headers := ["X-Powered-By:PHP"], noHeaders := [] }

/-- The §8 end-to-end scenario's response. -/
def c2resp : HTTPResponse :=
  { statusCode := 200, body := "...WordPress 5.0...",
    header := [("X-Powered-By", ["PHP/7.4"])] }

/-- C2 counterexample: the §8 scenario does not return `(true, nil)`. -/
theorem scenario_match_not_true :
    Check.Match (some c2check) (some c2resp) ≠ ((true : Bool), (none : Option MatchError)) := by
  decide

/-- C2 (amended): the §8 scenario returns `(false, nil)` — with no `match`
strings set, the empty `mustMatchOne` stage never passes. -/
theorem scenario_match_false :
    Check.Match (some c2check) (some c2resp) = ((false : Bool), (none : Option MatchError)) := by
  decide

/-- A check whose only flaw is a malformed `noHeaders` entry `"X-Foo"`. -/
def c3badCheck : Check :=
  { mustMatchOne := [], mustMatchAll := [], mustNotMatch := [],
    statusCode := some 200, name := "bad", remediation := "r", severity := "high",
    description := "d", headers := [], noHeaders := ["X-Foo"] }

/-- A signature set containing `c3badCheck`. -/
def c3sig : Signatures := ⟨[⟨["/"], [c3badCheck], false⟩]⟩

/-- A check with the malformed entry `"X-Foo"` in `headers` instead. -/
def c3hdrCheck : Check :=
  { mustMatchOne := [], mustMatchAll := [], mustNotMatch := [],
    statusCode := some 200, name := "badh", remediation := "r", severity := "high",
    description := "d", headers := ["X-Foo"], noHeaders := [] }

/-- A signature set containing `c3hdrCheck`. -/
def c3hdrSig : Signatures := ⟨[⟨["/"], [c3hdrCheck], false⟩]⟩

/-- C3 counterexample: a SignatureSet whose check carries the malformed
`noHeaders` entry `"X-Foo"` is returned by `ParseSignatures` — the loader
only format-checks the `headers` list. -/
theorem parse_accepts_malformed_noHeaders :
    countColons "X-Foo" ≠ 1
    ∧ "X-Foo" ∈ c3badCheck.noHeaders
    ∧ ParseSignatures c3sig = Except.ok c3sig :=
  ⟨by decide, by decide, rfl⟩

/-- C3 (amended): a malformed entry in a check's `headers` list means
`ParseSignatures` never returns a SignatureSet. -/
theorem parse_rejects_malformed_headers (sign : Signatures) (p : Plugin) (c : Check)
    (h : String) (hp : p ∈ sign.plugins) (hc : c ∈ p.checks) (hh : h ∈ c.headers)
    (hbad : countColons h ≠ 1) :
    ∀ s, ParseSignatures sign ≠ Except.ok s := by
  intro s hok
  rw [ParseSignatures] at hok
  cases hv : validatePlugins sign.plugins with
  | some e => rw [hv] at hok; simp at hok
  | none =>
    have h1 := validatePlugins_none sign.plugins hv p hp
    have h2 := validateChecks_none p.checks h1 c hc
    have h3 := validateCheck_none_headers c h2 h hh
    exact hbad h3

/-- Witness for the amended C3 at `c3hdrSig`. -/
theorem parse_rejects_malformed_headers_witness :
    (⟨["/"], [c3hdrCheck], false⟩ : Plugin) ∈ c3hdrSig.plugins
    ∧ c3hdrCheck ∈ (⟨["/"], [c3hdrCheck], false⟩ : Plugin).checks
    ∧ "X-Foo" ∈ c3hdrCheck.headers
    ∧ countColons "X-Foo" ≠ 1
    ∧ ∀ s, ParseSignatures c3hdrSig ≠ Except.ok s :=
  ⟨by decide, by decide, by decide, by decide,
    parse_rejects_malformed_headers c3hdrSig ⟨["/"], [c3hdrCheck], false⟩ c3hdrCheck
      "X-Foo" (by decide) (by decide) (by decide) (by decide)⟩

/-- A check whose `headers` entry is malformed, against responses that
fail the status gate. -/
def c6check : Check :=
  { mustMatchOne := ["WordPress"], mustMatchAll := [], mustNotMatch := [],
    statusCode := some 200, name := "n", remediation := "r", severity := "high",
    description := "d", headers := ["X-Foo"], noHeaders := [] }

/-- A response whose status differs from `c6check`'s expected 200. -/
def c6resp : HTTPResponse :=
  { statusCode := 404, body := "WordPress", header := [] }

/-- C6 counterexample: with a malformed `headers` entry but a mismatching
status code, `Match` returns `(false, nil)` — not an
`InvalidHeaderFormatError` — so the error is not produced independently of
the response. -/
theorem malformed_header_counterexample :
    countColons "X-Foo" ≠ 1
    ∧ "X-Foo" ∈ c6check.headers
    ∧ Check.Match (some c6check) (some c6resp) = ((false : Bool), (none : Option MatchError)) := by
  decide

/-- C6 (amended): a malformed `headers`/`noHeaders` entry means `Match`
can never report a match — the matched component is false for every
response (the `InvalidHeaderFormatError` itself only surfaces when
evaluation reaches the malformed entry). -/
theorem malformed_header_never_matches (check : Check) (resp : HTTPResponse)
    (hbad : ∃ h, (h ∈ check.headers ∨ h ∈ check.noHeaders) ∧ countColons h ≠ 1) :
    (Check.Match (some check) (some resp)).1 = false := by
  cases hm : (Check.Match (some check) (some resp)).1 with
  | false => rfl
  | true =>
    obtain ⟨h, hmem, hone⟩ := hbad
    have hpair : Check.Match (some check) (some resp) =
        ((Check.Match (some check) (some resp)).1,
          (Check.Match (some check) (some resp)).2) := rfl
    rw [hm] at hpair
    have hwf := match_true_wf check resp _ hpair
    rcases hmem with hmem | hmem
    · exact absurd (hwf.1 h hmem) hone
    · exact absurd (hwf.2 h hmem) hone

/-- Witness for the amended C6: `c6check` against a response that passes
the status gate. -/
theorem malformed_header_never_matches_witness :
    (∃ h, (h ∈ c6check.headers ∨ h ∈ c6check.noHeaders) ∧ countColons h ≠ 1)
    ∧ (Check.Match (some c6check) (some { c6resp with statusCode := 200 })).1 = false :=
  ⟨⟨"X-Foo", by decide, by decide⟩,
    malformed_header_never_matches c6check { c6resp with statusCode := 200 }
      ⟨"X-Foo", by decide, by decide⟩⟩

/-- C8: `ParseSignatures` is fail-fast in document order — with all
checks before `c` valid and `c` carrying an empty severity (non-empty
description and remediation), the result is exactly the
`MissingFieldError` for `c`'s severity, whatever comes after; and within
one check the validations run in the order description, remediation,
severity emptiness, severity label, header format. -/
theorem parse_failfast_severity (sign : Signatures) (ps1 ps2 : List Plugin) (p : Plugin)
    (cs1 cs2 : List Check) (c : Check)
    (hp : sign.plugins = ps1 ++ p :: ps2) (hc : p.checks = cs1 ++ c :: cs2)
    (hpre1 : ∀ q ∈ ps1, ∀ d ∈ q.checks, validateCheck d = none)
    (hpre2 : ∀ d ∈ cs1, validateCheck d = none)
    (hdesc : c.description ≠ "") (hrem : c.remediation ≠ "") (hsev : c.severity = "") :
    ParseSignatures sign = Except.error (ParseError.checkInvalidField c.name "severity")
    ∧ (∀ d : Check, d.description = "" →
        validateCheck d = some (ParseError.checkInvalidField d.name "description"))
    ∧ (∀ d : Check, d.description ≠ "" → d.remediation = "" →
        validateCheck d = some (ParseError.checkInvalidField d.name "remediation"))
    ∧ (∀ d : Check, d.description ≠ "" → d.remediation ≠ "" → d.severity = "" →
        validateCheck d = some (ParseError.checkInvalidField d.name "severity"))
    ∧ (∀ d : Check, d.description ≠ "" → d.remediation ≠ "" → d.severity ≠ "" →
        StringToSeverity d.severity = none →
        validateCheck d = some (ParseError.invalidSeverity d.severity))
    ∧ (∀ d : Check, d.description ≠ "" → d.remediation ≠ "" → d.severity ≠ "" →
        (StringToSeverity d.severity).isSome →
        validateCheck d = firstBadHeader d.headers) := by
  refine ⟨?_, ?_, ?_, ?_, ?_, ?_⟩
  · have hvc : validateCheck c = some (ParseError.checkInvalidField c.name "severity") := by
      rw [validateCheck, if_neg hdesc, if_neg hrem, if_pos hsev]
    have hcs : validateChecks p.checks =
        some (ParseError.checkInvalidField c.name "severity") := by
      rw [hc]
      exact validateChecks_append cs1 cs2 c _ hpre2 hvc
    have hps : validatePlugins sign.plugins =
        some (ParseError.checkInvalidField c.name "severity") := by
      rw [hp]
      exact validatePlugins_append ps1 ps2 p _ hpre1 hcs
    rw [ParseSignatures, hps]
  · intro d h1
    rw [validateCheck, if_pos h1]
  · intro d h1 h2
    rw [validateCheck, if_neg h1, if_pos h2]
  · intro d h1 h2 h3
    rw [validateCheck, if_neg h1, if_neg h2, if_pos h3]
  · intro d h1 h2 h3 h4
    rw [validateCheck, if_neg h1, if_neg h2, if_neg h3, if_pos (by rw [h4]; rfl)]
  · intro d h1 h2 h3 h4
    obtain ⟨v, hv⟩ := Option.isSome_iff_exists.mp h4
    rw [validateCheck, if_neg h1, if_neg h2, if_neg h3, if_neg (by rw [hv]; simp)]

/-- A valid check with severity "low". -/
def c8good : Check :=
  { mustMatchOne := [], mustMatchAll := [], mustNotMatch := [],
    statusCode := some 200, name := "ok1", remediation := "r", severity := "low",
    description := "d", headers := [], noHeaders := [] }

/-- A second valid check, severity "high". -/
def c8good2 : Check := { c8good with name := "ok2", severity := "high" }

/-- A third valid check, placed after the invalid one. -/
def c8good3 : Check := { c8good with name := "ok3" }

/-- The invalid check: empty severity, non-empty description and
remediation. -/
def c8bad : Check := { c8good with name := "chk", severity := "" }

/-- First plugin of the fail-fast document: entirely valid. -/
def c8p1 : Plugin := ⟨["/a"], [c8good], false⟩

/-- Second plugin: a valid check, then `c8bad`, then another valid one. -/
def c8p2 : Plugin := ⟨["/b"], [c8good2, c8bad, c8good3], true⟩

/-- The fail-fast document. -/
def c8sig : Signatures := ⟨[c8p1, c8p2]⟩

/-- Witness for C8 at `c8sig`: the error names check "chk" and field
"severity". -/
theorem parse_failfast_severity_witness :
    c8sig.plugins = [c8p1] ++ c8p2 :: []
    ∧ c8p2.checks = [c8good2] ++ c8bad :: [c8good3]
    ∧ (∀ q ∈ [c8p1], ∀ d ∈ q.checks, validateCheck d = none)
    ∧ (∀ d ∈ [c8good2], validateCheck d = none)
    ∧ c8bad.description ≠ ""
    ∧ c8bad.remediation ≠ ""
    ∧ c8bad.severity = ""
    ∧ ParseSignatures c8sig = Except.error (ParseError.checkInvalidField "chk" "severity") :=
  ⟨rfl, rfl, by decide, by decide, by decide, by decide, by decide,
    (parse_failfast_severity c8sig [c8p1] [] c8p2 [c8good2] [c8good3] c8bad rfl rfl
      (by decide) (by decide) (by decide) (by decide) (by decide)).1⟩

/-- The plugin loop of `PrintSignatures` produces exactly the
severity-filtered rows, in document order, and their count. -/
theorem printPluginsLoop_eq (sevStr : String) (ps : List Plugin) :
    printPluginsLoop sevStr ps =
      ((((ps.flatMap fun p => p.checks.map fun c => (p.endpoints, c)).filter
            fun pc => sevStr == pc.2.severity).map
          fun pc => (pc.1, pc.2.name, pc.2.severity, pc.2.description)),
        (((ps.flatMap fun p => p.checks.map fun c => (p.endpoints, c)).filter
            fun pc => sevStr == pc.2.severity).map
          fun pc => (pc.1, pc.2.name, pc.2.severity, pc.2.description)).length) := by
  induction ps with
  | nil => simp [printPluginsLoop]
  | cons p rest ih =>
    rw [printPluginsLoop, printChecksLoop_eq, ih]
    simp [List.filter_append]

/-- C9: filtering a SignatureSet's checks by a severity — as
`PrintSignatures` does — yields exactly the checks whose `severity` equals
the filter, as `(endpoints, name, severity, description)` rows in original
document order, and the reported total is their number. -/
theorem printSignatures_eq_severity_filter (sign : Signatures) (sevStr : String) :
    PrintSignatures sign sevStr =
      (checksWithSeveritySpec sign sevStr, (checksWithSeveritySpec sign sevStr).length) :=
  printPluginsLoop_eq sevStr sign.plugins

end ChopChop
